import Mathlib

/-!
Verification of the urban-traffic-management graph editor (`src/src/App.tsx`).

The development shallowly embeds the core of `App.tsx`:
  * the graph data model (`Node`, `Edge`, `GraphData`),
  * the shortest-path engine `findShortestPath` (classic Dijkstra),
  * the interactive edit-session handlers (`handleNodeClick`,
    `handleAddNewNode`, `handleAddEdge`, `handleRemoveEdge`,
    `handleModifyWeight`, `handleFindPath`, `handleDoneSelection`,
    `handleWeightSubmit`),
  * the `setTimeout`-based highlight expiry.

Modelling conventions:
  * Node ids are `String`s; the cosmetic 2-D positions (floating point,
    consumed only by the renderer) are omitted from `Node`.
  * JavaScript's `Infinity` distance and the `undefined`/`null` values of
    the distance/predecessor dictionaries are modelled by `Option`
    (`none` = `Infinity`/`null`/`undefined`); in every comparison the code
    performs these behave identically, and the claims' hypotheses
    (existing endpoints) keep the conflation unobservable.
  * `edge.source`/`edge.target` can be either a string or a node object in
    the running app; every access in `App.tsx` first normalises to the id
    (`typeof … === 'object' ? ….id : …`), so the embedding stores the id
    directly and the normalisation is the identity.
  * JS `Set`s are insertion-ordered; they are modelled by duplicate-free
    lists in insertion order (`add` appends if absent, `delete` erases).
  * `Math.random()`-generated edge weights enter the handlers as explicit
    parameters (`w`, `gen`), one per `generateWeight()` call.
  * The two `while` loops of `findShortestPath` are embedded with explicit
    fuel; the main loop is run with fuel `|unvisited| + 1` (it removes one
    node per iteration or breaks, see `dijkstraLoop_fuel`), and the
    path-reconstruction loop with fuel `|nodes| + 1`.  `findShortestPath`
    returns `none` if reconstruction fuel runs out (modelling the only way
    the JS loop could diverge), `some none` for the "no path" result and
    `some (some r)` for a found path.
  * JS numbers are modelled exactly (`Nat`/`Int`); all weights the app
    stores are integers, and `parseInt` is embedded at radix 10/16 as the
    spec of ECMA `parseInt` prescribes for the default radix.
-/

namespace Traffic

/-- A graph node (`interface Node` in `App.tsx`); positions are cosmetic and
omitted. -/
structure Node where
  id : String
deriving DecidableEq, Repr

/-- A weighted edge (`interface Edge`): endpoints stored as ids (see module
comment) and a weight. -/
structure Edge where
  source : String
  target : String
  weight : Nat
deriving DecidableEq, Repr

/-- `interface GraphData`. -/
structure GraphData where
  nodes : List Node
  links : List Edge
deriving DecidableEq, Repr

/-- Result of a successful shortest-path query (`{ path, totalWeight }`). -/
structure PathResult where
  path : List String
  totalWeight : Nat
deriving DecidableEq, Repr

/-! ### JavaScript `parseInt` (radix 10, with the `0x` hex prefix) -/

/-- Whitespace skipped by `parseInt`. -/
def isWs (c : Char) : Bool := c == ' ' || c == '\t' || c == '\n' || c == '\r'

/-- Decimal digit value. -/
def digitVal (c : Char) : Option Nat :=
  if '0' ≤ c ∧ c ≤ '9' then some (c.toNat - 48) else none

/-- Hexadecimal digit value. -/
def hexVal (c : Char) : Option Nat :=
  if '0' ≤ c ∧ c ≤ '9' then some (c.toNat - 48)
  else if 'a' ≤ c ∧ c ≤ 'f' then some (c.toNat - 87)
  else if 'A' ≤ c ∧ c ≤ 'F' then some (c.toNat - 55)
  else none

/-- Longest digit prefix at a given radix; `none` when there is no digit
(`parseInt` returns `NaN` then). -/
def parseRadix (val : Char → Option Nat) (base : Nat) (cs : List Char) : Option Nat :=
  let ds := cs.takeWhile (fun c => (val c).isSome)
  if ds.isEmpty then none
  else some (ds.foldl (fun a c => a * base + ((val c).getD 0)) 0)

/-- Magnitude part of `parseInt`: a `0x`/`0X` prefix selects radix 16,
otherwise radix 10. -/
def jsParseIntMag : List Char → Option Nat
  | '0' :: 'x' :: rest => parseRadix hexVal 16 rest
  | '0' :: 'X' :: rest => parseRadix hexVal 16 rest
  | cs => parseRadix digitVal 10 cs

/-- ECMA `parseInt(s)` (default radix): skip whitespace, optional sign,
longest digit prefix; `none` models `NaN`. -/
def jsParseInt (s : String) : Option Int :=
  match s.data.dropWhile isWs with
  | '-' :: rest => (jsParseIntMag rest).map (fun n => -(n : Int))
  | '+' :: rest => (jsParseIntMag rest).map (fun n => (n : Int))
  | cs => (jsParseIntMag cs).map (fun n => (n : Int))

/-! ### The shortest-path engine (`findShortestPath`, `App.tsx` lines 30–98) -/

/-- Distance dictionary: `none` is `Infinity` (or an absent key). -/
abbrev DistMap := String → Option Nat

/-- Predecessor dictionary: `none` is `null` (or an absent key). -/
abbrev PrevMap := String → Option String

/-- Adjacency dictionary built from the edge list. -/
abbrev Adj := String → List (String × Nat)

/-- Pointwise dictionary update. -/
def updateD (m : DistMap) (k : String) (v : Option Nat) : DistMap :=
  fun x => if x = k then v else m x

/-- Pointwise dictionary update. -/
def updateP (m : PrevMap) (k : String) (v : Option String) : PrevMap :=
  fun x => if x = k then v else m x

/-- `graph[k].push(v)`. -/
def pushAdj (g : Adj) (k : String) (v : String × Nat) : Adj :=
  fun x => if x = k then g x ++ [v] else g x

/-- The adjacency list of `findShortestPath`: each edge contributes both
directions, in edge order.  (The JS code first creates an empty entry per
node; pushing for a non-node endpoint would throw there, which is why the
claims assume edge endpoints exist.) -/
def buildAdj (edges : List Edge) : Adj :=
  edges.foldl
    (fun g e => pushAdj (pushAdj g e.source (e.target, e.weight)) e.target (e.source, e.weight))
    (fun _ => [])

/-- JS `a < b` on distances where `none` is `Infinity`/`undefined` (both
compare as false on the left). -/
def distLt : Option Nat → Option Nat → Bool
  | some a, some b => a < b
  | some _, none => true
  | none, _ => false

/-- `distances[current] + neighbor.weight` (`none` propagates, as
`Infinity`/`NaN` do in every comparison used). -/
def addDist : Option Nat → Nat → Option Nat
  | some d, w => some (d + w)
  | none, _ => none

/-- The unvisited set, a `Set` populated in node order (insertion-ordered,
duplicates ignored). -/
def initUnvisited (nodes : List Node) : List String :=
  nodes.foldl (fun l n => if n.id ∈ l then l else l ++ [n.id]) []

/-- Initial distances: every node `Infinity`, then `distances[start] = 0`.
(Setting the nodes to `Infinity` is the identity here since `none` is the
default.) -/
def initDist (startNodeId : String) : DistMap :=
  updateD (fun _ => none) startNodeId (some 0)

/-- One step of the minimum-distance scan (`if (distances[nodeId] <
minDistance) { … }`). -/
def scanStep (dist : DistMap) (acc : Option String × Option Nat) (nid : String) :
    Option String × Option Nat :=
  if distLt (dist nid) acc.2 then (some nid, dist nid) else acc

/-- The minimum-distance scan over the unvisited set (insertion order,
strict `<`, so the first of tied nodes wins); `none` models the `''`
sentinel meaning no unvisited node has finite distance. -/
def scanMin (unvisited : List String) (dist : DistMap) : Option String :=
  (unvisited.foldl (scanStep dist) ((none : Option String), (none : Option Nat))).1

/-- One neighbor relaxation of the inner `forEach`. -/
def relaxStep (current : String) (unvisited : List String)
    (dp : DistMap × PrevMap) (nb : String × Nat) : DistMap × PrevMap :=
  if nb.1 ∈ unvisited then
    let nd := addDist (dp.1 current) nb.2
    if distLt nd (dp.1 nb.1) then
      (updateD dp.1 nb.1 nd, updateP dp.2 nb.1 (some current))
    else dp
  else dp

/-- The neighbor-relaxation `forEach` over `graph[current]`. -/
def relaxAll (g : Adj) (current : String) (unvisited : List String)
    (dp : DistMap × PrevMap) : DistMap × PrevMap :=
  (g current).foldl (relaxStep current unvisited) dp

/-- The main Dijkstra `while` loop, with fuel.  Each iteration selects the
minimum-distance unvisited node, breaks on the sentinel or the target, and
otherwise removes the node and relaxes its neighbors. -/
def dijkstraLoop (g : Adj) (endNodeId : String) :
    Nat → List String → DistMap × PrevMap → DistMap × PrevMap
  | 0, _, dp => dp
  | fuel + 1, unvisited, dp =>
    match scanMin unvisited dp.1 with
    | none => dp
    | some current =>
      if current = endNodeId then dp
      else
        let uv := unvisited.erase current
        dijkstraLoop g endNodeId fuel uv (relaxAll g current uv dp)

/-- The path-reconstruction `while (current !== null)` loop, with fuel
(`none` = fuel exhausted, i.e. the loop would not have terminated). -/
def reconstruct (prev : PrevMap) : Nat → Option String → List String → Option (List String)
  | _, none, acc => some acc
  | 0, some _, _ => none
  | fuel + 1, some c, acc => reconstruct prev fuel (prev c) (c :: acc)

/-- `findShortestPath(nodes, edges, startNodeId, endNodeId)`:
`some (some r)` = path found, `some none` = `null` ("no path"),
`none` = reconstruction fuel exhausted (never happens, claim C10). -/
def findShortestPath (nodes : List Node) (edges : List Edge)
    (startNodeId endNodeId : String) : Option (Option PathResult) :=
  let g := buildAdj edges
  let unvisited := initUnvisited nodes
  let dp := dijkstraLoop g endNodeId (unvisited.length + 1) unvisited
    (initDist startNodeId, fun _ => none)
  match dp.1 endNodeId with
  | none => some none
  | some d =>
    match reconstruct dp.2 (nodes.length + 1) (some endNodeId) [] with
    | none => none
    | some p => some (some ⟨p, d⟩)

/-! ### The edit-session state machine (`function App()`) -/

/-- Truthiness of a `string | null` value (`null` and `''` are falsy). -/
def optTruthy : Option String → Bool
  | none => false
  | some s => !(s == "")

/-- JS string interpolation of a `string | null` value (`null` prints as
`"null"`). -/
def jsStr : Option String → String
  | none => "null"
  | some s => s

/-- The duplicate / existence check used by the AddingEdge, RemovingEdge and
ModifyingWeight branches: the pair matches in either stored orientation. -/
def edgeMatches (a b : String) (l : Edge) : Bool :=
  (l.source == a && l.target == b) || (l.source == b && l.target == a)

/-- `graphData.links.some(...)` in the handlers. -/
def edgeExistsB (links : List Edge) (a b : String) : Bool :=
  links.any (fun l => edgeMatches a b l)

/-- The edge-match used by `handleWeightSubmit`, where the recorded picks are
`string | null` (`null` never strictly equals a string). -/
def edgeMatchesOpt (a b : Option String) (l : Edge) : Bool :=
  (a == some l.source && b == some l.target) || (a == some l.target && b == some l.source)

/-- Toggling membership of a picked node in the chosen-peers `Set`. -/
def toggleSelect (l : List String) (nid : String) : List String :=
  if nid ∈ l then l.erase nid else l ++ [nid]

/-- The `React.useState` fields of `App` that the core reads or writes. -/
structure AppState where
  graphData : GraphData
  shortestPathInfo : Option PathResult
  isSelectingNodes : Bool
  selectedNodes : List String
  newNodeId : Option String
  isAddingEdge : Bool
  edgeSourceNode : Option String
  edgeTargetNode : Option String
  isRemovingEdge : Bool
  removeSourceNode : Option String
  removeTargetNode : Option String
  isModifyingWeight : Bool
  weightSourceNode : Option String
  weightTargetNode : Option String
  isFindingPath : Bool
  pathSourceNode : Option String
  pathTargetNode : Option String
  newWeight : String
  weightError : String
  newNodeHighlight : Option String
  newEdgeHighlight : List String
  edgeError : String
  removeEdgeError : String
  weightEdgeHighlight : List String
  modifiedEdgeHighlight : List String
deriving DecidableEq, Repr

/-- What a scheduled `setTimeout` callback does when it fires. -/
inductive TimerAction where
  | clearNewEdgeHighlight
  | clearNodeAndEdgeHighlight
  | clearModifiedEdgeHighlight
deriving DecidableEq, Repr

/-- Result of one handler invocation: the new state, the `setTimeout`
registrations it scheduled (delay, action) and the `alert`s it raised. -/
structure HResult where
  state : AppState
  timers : List (Nat × TimerAction)
  alerts : List String
deriving DecidableEq, Repr

/-- The no-effect result (the handler returned without updating state). -/
def noClick (s : AppState) : HResult := ⟨s, [], []⟩

/-- `handleNodeClick` (`App.tsx` lines 310–443): the `onNodePicked` event of
every mode.  `w` is the value `generateWeight()` returns in the AddingEdge
success branch. -/
def handleNodeClick (w : Nat) (nid : String) (s : AppState) : HResult :=
  if s.isSelectingNodes && optTruthy s.newNodeId then
    ⟨{ s with selectedNodes := toggleSelect s.selectedNodes nid }, [], []⟩
  else if s.isAddingEdge then
    match s.edgeSourceNode with
    | none => ⟨{ s with edgeSourceNode := some nid, edgeError := "" }, [], []⟩
    | some src =>
      if src = "" then ⟨{ s with edgeSourceNode := some nid, edgeError := "" }, [], []⟩
      else if nid ≠ src then
        if edgeExistsB s.graphData.links src nid then
          ⟨{ s with edgeError := "An edge already exists between these nodes" }, [], []⟩
        else
          ⟨{ s with
              newEdgeHighlight := [src ++ "-" ++ nid],
              graphData := ⟨s.graphData.nodes, s.graphData.links ++ [⟨src, nid, w⟩]⟩,
              edgeTargetNode := some nid,
              edgeError := "" },
            [(15000, TimerAction.clearNewEdgeHighlight)], []⟩
      else noClick s
  else if s.isRemovingEdge then
    match s.removeSourceNode with
    | none => ⟨{ s with removeSourceNode := some nid, removeEdgeError := "" }, [], []⟩
    | some src =>
      if src = "" then ⟨{ s with removeSourceNode := some nid, removeEdgeError := "" }, [], []⟩
      else if nid ≠ src then
        if !(edgeExistsB s.graphData.links src nid) then
          ⟨{ s with removeEdgeError := "No edge exists between these nodes" }, [], []⟩
        else
          ⟨{ s with
              graphData := ⟨s.graphData.nodes,
                s.graphData.links.filter (fun l => !(edgeMatches src nid l))⟩,
              removeTargetNode := some nid,
              removeEdgeError := "" }, [], []⟩
      else noClick s
  else if s.isModifyingWeight then
    match s.weightSourceNode with
    | none =>
      ⟨{ s with weightSourceNode := some nid, weightError := "", weightEdgeHighlight := [] },
        [], []⟩
    | some src =>
      if src = "" then
        ⟨{ s with weightSourceNode := some nid, weightError := "", weightEdgeHighlight := [] },
          [], []⟩
      else if nid ≠ src then
        match s.graphData.links.find? (fun l => edgeMatches src nid l) with
        | some e =>
          ⟨{ s with
              weightTargetNode := some nid, newWeight := toString e.weight,
              weightError := "", weightEdgeHighlight := [src ++ "-" ++ nid] }, [], []⟩
        | none =>
          ⟨{ s with
              weightError := "No edge exists between these nodes",
              weightEdgeHighlight := [] }, [], []⟩
      else noClick s
  else if s.isFindingPath then
    match s.pathSourceNode with
    | none => ⟨{ s with pathSourceNode := some nid }, [], []⟩
    | some src =>
      if src = "" then ⟨{ s with pathSourceNode := some nid }, [], []⟩
      else if nid ≠ src then
        match findShortestPath s.graphData.nodes s.graphData.links src nid with
        | some (some r) => ⟨{ s with shortestPathInfo := some r, pathTargetNode := some nid }, [], []⟩
        | _ => ⟨s, [], ["No path exists between these nodes"]⟩
      else noClick s
  else noClick s

/-- Numbers of the existing node ids after `id.replace('node','')` (a JS
`replace` with a string pattern replaces the first occurrence only); ids
parsing to `NaN` can never equal the integer candidates, so they are
dropped. -/
def replaceFirstNode (s : String) : String :=
  match s.splitOn "node" with
  | [] => s
  | [x] => x
  | x :: y :: rest => x ++ y ++ (rest.foldl (fun a r => a ++ "node" ++ r) "")

/-- `existingNodeNumbers` of `handleAddNewNode`. -/
def nodeNumbers (nodes : List Node) : List Int :=
  nodes.filterMap (fun n => jsParseInt (replaceFirstNode n.id))

/-- The `while (existingNodeNumbers.has(nextNodeNumber)) nextNodeNumber++`
search, fueled; `|nums| + 1` candidates always contain a free number. -/
def nextNodeNumberAux : Nat → Nat → List Int → Nat
  | 0, k, _ => k
  | fuel + 1, k, nums => if (k : Int) ∈ nums then nextNodeNumberAux fuel (k + 1) nums else k

/-- The next unused numeric node id. -/
def nextNodeNumber (nums : List Int) : Nat := nextNodeNumberAux (nums.length + 1) 1 nums

/-- `handleAddNewNode` (lines 260–308): clear other modes, compute the next
free id, and enter peer selection (the node itself is not yet inserted). -/
def handleAddNewNode (s : AppState) : AppState :=
  let cleared := { s with
    shortestPathInfo := none,
    isAddingEdge := false, edgeSourceNode := none, edgeTargetNode := none,
    isRemovingEdge := false, removeSourceNode := none, removeTargetNode := none,
    isModifyingWeight := false, weightSourceNode := none, weightTargetNode := none,
    newWeight := "", weightError := "",
    isFindingPath := false, pathSourceNode := none, pathTargetNode := none }
  let n := nextNodeNumber (nodeNumbers s.graphData.nodes)
  { cleared with
    newNodeId := some ("node" ++ toString n),
    isSelectingNodes := true,
    selectedNodes := [] }

/-- `handleDoneSelection` (lines 445–502): commit the pending node and one
edge per chosen peer; `gen i` is the `generateWeight()` value of the `i`-th
peer's edge. -/
def handleDoneSelection (gen : Nat → Nat) (s : AppState) : HResult :=
  if !(optTruthy s.newNodeId) || s.selectedNodes.length == 0 then
    ⟨s, [], ["Please select at least one node to connect with"]⟩
  else
    let nid := jsStr s.newNodeId
    let newEdges := (s.selectedNodes.enum).map (fun p => Edge.mk nid p.2 (gen p.1))
    ⟨{ s with
        shortestPathInfo := none,
        newNodeHighlight := some nid,
        newEdgeHighlight := newEdges.map (fun e => e.source ++ "-" ++ e.target),
        graphData := ⟨s.graphData.nodes ++ [Node.mk nid], s.graphData.links ++ newEdges⟩,
        isSelectingNodes := false,
        selectedNodes := [],
        newNodeId := none },
      [(15000, TimerAction.clearNodeAndEdgeHighlight)], []⟩

/-- `handleAddEdge` (lines 516–538): enter AddingEdge. -/
def handleAddEdge (s : AppState) : AppState :=
  { s with
    shortestPathInfo := none,
    isSelectingNodes := false, selectedNodes := [], newNodeId := none,
    isRemovingEdge := false, removeSourceNode := none, removeTargetNode := none,
    isModifyingWeight := false, weightSourceNode := none, weightTargetNode := none,
    newWeight := "", weightError := "",
    isFindingPath := false, pathSourceNode := none, pathTargetNode := none,
    isAddingEdge := true, edgeSourceNode := none, edgeTargetNode := none }

/-- `handleRemoveEdge` (lines 546–568): enter RemovingEdge. -/
def handleRemoveEdge (s : AppState) : AppState :=
  { s with
    shortestPathInfo := none,
    isSelectingNodes := false, selectedNodes := [], newNodeId := none,
    isAddingEdge := false, edgeSourceNode := none, edgeTargetNode := none,
    isModifyingWeight := false, weightSourceNode := none, weightTargetNode := none,
    newWeight := "", weightError := "",
    isFindingPath := false, pathSourceNode := none, pathTargetNode := none,
    isRemovingEdge := true, removeSourceNode := none, removeTargetNode := none }

/-- `handleModifyWeight` (lines 576–598): enter ModifyingWeight. -/
def handleModifyWeight (s : AppState) : AppState :=
  { s with
    shortestPathInfo := none,
    isSelectingNodes := false, selectedNodes := [], newNodeId := none,
    isAddingEdge := false, edgeSourceNode := none, edgeTargetNode := none,
    isRemovingEdge := false, removeSourceNode := none, removeTargetNode := none,
    isFindingPath := false, pathSourceNode := none, pathTargetNode := none,
    isModifyingWeight := true, weightSourceNode := none, weightTargetNode := none,
    newWeight := "", weightError := "" }

/-- `handleFindPath` (lines 600–622): enter FindingPath. -/
def handleFindPath (s : AppState) : AppState :=
  { s with
    shortestPathInfo := none,
    isSelectingNodes := false, selectedNodes := [], newNodeId := none,
    isAddingEdge := false, edgeSourceNode := none, edgeTargetNode := none,
    isRemovingEdge := false, removeSourceNode := none, removeTargetNode := none,
    isModifyingWeight := false, weightSourceNode := none, weightTargetNode := none,
    newWeight := "", weightError := "",
    isFindingPath := true, pathSourceNode := none, pathTargetNode := none }

/-- `handleWeightSubmit` (lines 633–670): validate the pending text and
replace the matched edge's weight. -/
def handleWeightSubmit (s : AppState) : HResult :=
  if s.newWeight = "" then
    ⟨{ s with weightError := "Please enter a weight" }, [], []⟩
  else
    match jsParseInt s.newWeight with
    | some wv =>
      if 0 < wv then
        ⟨{ s with
            graphData := ⟨s.graphData.nodes,
              s.graphData.links.map (fun l =>
                if edgeMatchesOpt s.weightSourceNode s.weightTargetNode l then
                  { l with weight := wv.toNat }
                else l)⟩,
            modifiedEdgeHighlight := [jsStr s.weightSourceNode ++ "-" ++ jsStr s.weightTargetNode],
            newWeight := "", weightError := "" },
          [(15000, TimerAction.clearModifiedEdgeHighlight)], []⟩
      else ⟨{ s with weightError := "Please enter a valid positive number" }, [], []⟩
    | none => ⟨{ s with weightError := "Please enter a valid positive number" }, [], []⟩

/-! ### The timed highlight model -/

/-- Run a fired `setTimeout` callback.  Note each callback resets the whole
highlight collection of its kind (`set…(new Set())` / `set…(null)`), not a
single registration. -/
def applyTimer : TimerAction → AppState → AppState
  | TimerAction.clearNewEdgeHighlight, s => { s with newEdgeHighlight := [] }
  | TimerAction.clearNodeAndEdgeHighlight, s =>
      { s with newNodeHighlight := none, newEdgeHighlight := [] }
  | TimerAction.clearModifiedEdgeHighlight, s => { s with modifiedEdgeHighlight := [] }

/-- The app plus its pending timers: each entry is (absolute fire time,
callback). -/
structure Sys where
  st : AppState
  timers : List (Nat × TimerAction)
  now : Nat
deriving DecidableEq, Repr

/-- A node pick arriving at absolute time `t`: run `handleNodeClick` and
schedule its timeouts `delay` after `t`. -/
def clickAt (t w : Nat) (nid : String) (sys : Sys) : Sys :=
  let r := handleNodeClick w nid sys.st
  { st := r.state, timers := sys.timers ++ r.timers.map (fun p => (t + p.1, p.2)), now := t }

/-- Advance the clock to `t` and fire every timer due by then, in schedule
order. -/
def fireDueAt (t : Nat) (sys : Sys) : Sys :=
  { st := (sys.timers.filter (fun p => decide (p.1 ≤ t))).foldl (fun s p => applyTimer p.2 s) sys.st,
    timers := sys.timers.filter (fun p => !(decide (p.1 ≤ t))), now := t }

/-- A fresh app state over the given graph: Idle, no scratch state, no
highlights. -/
def mkInitialState (nodes : List Node) (links : List Edge) : AppState :=
  { graphData := ⟨nodes, links⟩, shortestPathInfo := none, isSelectingNodes := false,
    selectedNodes := [], newNodeId := none, isAddingEdge := false, edgeSourceNode := none,
    edgeTargetNode := none, isRemovingEdge := false, removeSourceNode := none,
    removeTargetNode := none, isModifyingWeight := false, weightSourceNode := none,
    weightTargetNode := none, isFindingPath := false, pathSourceNode := none,
    pathTargetNode := none, newWeight := "", weightError := "", newNodeHighlight := none,
    newEdgeHighlight := [], edgeError := "", removeEdgeError := "", weightEdgeHighlight := [],
    modifiedEdgeHighlight := [] }

/-- Undirected connection through some edge of the list (either stored
orientation). -/
def EdgeConn (edges : List Edge) (x y : String) : Prop :=
  ∃ e ∈ edges, (e.source = x ∧ e.target = y) ∨ (e.source = y ∧ e.target = x)

/-- Reachability in the undirected graph spanned by `edges`: `src` and a
node in its connected component. -/
inductive Reach (edges : List Edge) (src : String) : String → Prop
  | refl : Reach edges src src
  | step {b c : String} : Reach edges src b → EdgeConn edges b c → Reach edges src c

/-- Stratification of the predecessor map: the list records the visited
nodes in removal order, and each one's predecessor (if any) was removed
strictly earlier.  Every predecessor chain therefore descends through this
list and ends at a node with no predecessor — the invariant behind the
termination of the path-reconstruction loop (claim C10). -/
inductive PrevTower (prev : PrevMap) : List String → Prop
  | nil : PrevTower prev []
  | snoc (vs : List String) (c : String) :
      PrevTower prev vs → (∀ u, prev c = some u → u ∈ vs) → PrevTower prev (vs ++ [c])

/-! ### Concrete scenarios used by counterexamples and witnesses -/

/-- A fresh session over two unconnected nodes. -/
def c2Init : AppState := mkInitialState [⟨"node1"⟩, ⟨"node2"⟩] []

/-- Reached by: enter RemovingEdge, pick `node1`, then pick `node2` (no edge
exists, so the removal is rejected and `removeEdgeError` is set). -/
def c2Failed : AppState :=
  (handleNodeClick 5 "node2" (handleNodeClick 5 "node1" (handleRemoveEdge c2Init)).state).state

/-- An AddingEdge session over three nodes with `node1` recorded as source. -/
def c6Start : AppState :=
  { mkInitialState [⟨"node1"⟩, ⟨"node2"⟩, ⟨"node3"⟩] [] with
    isAddingEdge := true, edgeSourceNode := some "node1" }

/-- At time 0: pick `node2` — edge added, highlight registered, expiry
scheduled for 15000. -/
def c6Sys1 : Sys := clickAt 0 20 "node2" ⟨c6Start, [], 0⟩

/-- At time 10000: pick `node3` — second edge added, second highlight
registration, expiry scheduled for 25000. -/
def c6Sys2 : Sys := clickAt 10000 21 "node3" c6Sys1

/-- At time 15000 the first registration's timer fires. -/
def c6Sys3 : Sys := fireDueAt 15000 c6Sys2

/-- A ModifyingWeight session with the edge (a,b,3) selected. -/
def c5Sel : AppState :=
  { mkInitialState [⟨"a"⟩, ⟨"b"⟩] [⟨"a", "b", 3⟩] with
    isModifyingWeight := true, weightSourceNode := some "a",
    weightTargetNode := some "b", newWeight := "7" }

/-- An AddingEdge session over a graph that already stores the edge (b,a,4). -/
def c3Sel : AppState :=
  { mkInitialState [⟨"a"⟩, ⟨"b"⟩] [⟨"b", "a", 4⟩] with
    isAddingEdge := true, edgeSourceNode := some "a" }

/-- A SelectingPeersForNewNode session with pending id `node2` and peer
`node1` chosen. -/
def c7Sel : AppState :=
  { mkInitialState [⟨"node1"⟩] [] with
    isSelectingNodes := true, newNodeId := some "node2", selectedNodes := ["node1"] }

/-- A RemovingEdge session over a graph storing the single edge (b,a,4). -/
def c8Sel : AppState :=
  { mkInitialState [⟨"a"⟩, ⟨"b"⟩] [⟨"b", "a", 4⟩] with isRemovingEdge := true }

/-- The node list of the disconnected witness graph: two components
{1,2} and {3,4}. -/
def c4Nodes : List Node := [⟨"1"⟩, ⟨"2"⟩, ⟨"3"⟩, ⟨"4"⟩]

/-- The edge list of the disconnected witness graph. -/
def c4Edges : List Edge := [⟨"1", "2", 1⟩, ⟨"3", "4", 1⟩]

/-! ## Claim C1 -/

/-- C1: for the concrete graph with nodes {1,2,3,4} and undirected edges
(1,2) of weight 4, (2,3) of weight 1, (1,3) of weight 10, (3,4) of weight 2,
`findShortestPath` called with source 1 and target 4 returns the path
[1,2,3,4] with totalWeight 7. -/
theorem C1_shortest_path_example :
    findShortestPath [⟨"1"⟩, ⟨"2"⟩, ⟨"3"⟩, ⟨"4"⟩]
      [⟨"1", "2", 4⟩, ⟨"2", "3", 1⟩, ⟨"1", "3", 10⟩, ⟨"3", "4", 2⟩] "1" "4"
      = some (some ⟨["1", "2", "3", "4"], 7⟩) := by decide

/-! ## Claim C2 -/

/-- C2 counterexample: in the reachable state `c2Failed` (a RemovingEdge
session whose second pick was rejected, so `removeEdgeError` is set),
entering AddingEdge does NOT clear the RemovingEdge validation error
message, contradicting the claim that entering any mode clears every other
mode's scratch fields including validation error messages. -/
theorem C2_mode_entry_cex :
    c2Failed.removeEdgeError = "No edge exists between these nodes" ∧
    (handleAddEdge c2Failed).isAddingEdge = true ∧
    (handleAddEdge c2Failed).removeEdgeError = "No edge exists between these nodes" ∧
    ¬ (handleAddEdge c2Failed).removeEdgeError = "" := by decide

/-- C2 (amended): entering any of the five modes from any state clears the
displayed path result, the recorded source and target picks of all four
two-step modes, the chosen-peer set and pending node id, and the pending
weight text and weight validation error, and transitions to the entered
mode whose pick fields start empty — but the add-edge and remove-edge
validation error messages are NOT cleared by mode entry (they are preserved
verbatim).  In particular entering FindingPath while AddingEdge holds a
pending source clears that pending edge-source. -/
theorem C2_mode_entry_amended (s : AppState) :
    ((handleAddNewNode s).shortestPathInfo = none ∧
      (handleAddNewNode s).isAddingEdge = false ∧
      (handleAddNewNode s).edgeSourceNode = none ∧
      (handleAddNewNode s).edgeTargetNode = none ∧
      (handleAddNewNode s).isRemovingEdge = false ∧
      (handleAddNewNode s).removeSourceNode = none ∧
      (handleAddNewNode s).removeTargetNode = none ∧
      (handleAddNewNode s).isModifyingWeight = false ∧
      (handleAddNewNode s).weightSourceNode = none ∧
      (handleAddNewNode s).weightTargetNode = none ∧
      (handleAddNewNode s).isFindingPath = false ∧
      (handleAddNewNode s).pathSourceNode = none ∧
      (handleAddNewNode s).pathTargetNode = none ∧
      (handleAddNewNode s).newWeight = "" ∧
      (handleAddNewNode s).weightError = "" ∧
      (handleAddNewNode s).isSelectingNodes = true ∧
      (handleAddNewNode s).selectedNodes = [] ∧
      (handleAddNewNode s).edgeError = s.edgeError ∧
      (handleAddNewNode s).removeEdgeError = s.removeEdgeError) ∧
    ((handleAddEdge s).shortestPathInfo = none ∧
      (handleAddEdge s).isSelectingNodes = false ∧
      (handleAddEdge s).selectedNodes = [] ∧
      (handleAddEdge s).newNodeId = none ∧
      (handleAddEdge s).isRemovingEdge = false ∧
      (handleAddEdge s).removeSourceNode = none ∧
      (handleAddEdge s).removeTargetNode = none ∧
      (handleAddEdge s).isModifyingWeight = false ∧
      (handleAddEdge s).weightSourceNode = none ∧
      (handleAddEdge s).weightTargetNode = none ∧
      (handleAddEdge s).isFindingPath = false ∧
      (handleAddEdge s).pathSourceNode = none ∧
      (handleAddEdge s).pathTargetNode = none ∧
      (handleAddEdge s).newWeight = "" ∧
      (handleAddEdge s).weightError = "" ∧
      (handleAddEdge s).isAddingEdge = true ∧
      (handleAddEdge s).edgeSourceNode = none ∧
      (handleAddEdge s).edgeTargetNode = none ∧
      (handleAddEdge s).edgeError = s.edgeError ∧
      (handleAddEdge s).removeEdgeError = s.removeEdgeError) ∧
    ((handleRemoveEdge s).shortestPathInfo = none ∧
      (handleRemoveEdge s).isSelectingNodes = false ∧
      (handleRemoveEdge s).selectedNodes = [] ∧
      (handleRemoveEdge s).newNodeId = none ∧
      (handleRemoveEdge s).isAddingEdge = false ∧
      (handleRemoveEdge s).edgeSourceNode = none ∧
      (handleRemoveEdge s).edgeTargetNode = none ∧
      (handleRemoveEdge s).isModifyingWeight = false ∧
      (handleRemoveEdge s).weightSourceNode = none ∧
      (handleRemoveEdge s).weightTargetNode = none ∧
      (handleRemoveEdge s).isFindingPath = false ∧
      (handleRemoveEdge s).pathSourceNode = none ∧
      (handleRemoveEdge s).pathTargetNode = none ∧
      (handleRemoveEdge s).newWeight = "" ∧
      (handleRemoveEdge s).weightError = "" ∧
      (handleRemoveEdge s).isRemovingEdge = true ∧
      (handleRemoveEdge s).removeSourceNode = none ∧
      (handleRemoveEdge s).removeTargetNode = none ∧
      (handleRemoveEdge s).edgeError = s.edgeError ∧
      (handleRemoveEdge s).removeEdgeError = s.removeEdgeError) ∧
    ((handleModifyWeight s).shortestPathInfo = none ∧
      (handleModifyWeight s).isSelectingNodes = false ∧
      (handleModifyWeight s).selectedNodes = [] ∧
      (handleModifyWeight s).newNodeId = none ∧
      (handleModifyWeight s).isAddingEdge = false ∧
      (handleModifyWeight s).edgeSourceNode = none ∧
      (handleModifyWeight s).edgeTargetNode = none ∧
      (handleModifyWeight s).isRemovingEdge = false ∧
      (handleModifyWeight s).removeSourceNode = none ∧
      (handleModifyWeight s).removeTargetNode = none ∧
      (handleModifyWeight s).isFindingPath = false ∧
      (handleModifyWeight s).pathSourceNode = none ∧
      (handleModifyWeight s).pathTargetNode = none ∧
      (handleModifyWeight s).isModifyingWeight = true ∧
      (handleModifyWeight s).weightSourceNode = none ∧
      (handleModifyWeight s).weightTargetNode = none ∧
      (handleModifyWeight s).newWeight = "" ∧
      (handleModifyWeight s).weightError = "" ∧
      (handleModifyWeight s).edgeError = s.edgeError ∧
      (handleModifyWeight s).removeEdgeError = s.removeEdgeError) ∧
    ((handleFindPath s).shortestPathInfo = none ∧
      (handleFindPath s).isSelectingNodes = false ∧
      (handleFindPath s).selectedNodes = [] ∧
      (handleFindPath s).newNodeId = none ∧
      (handleFindPath s).isAddingEdge = false ∧
      (handleFindPath s).edgeSourceNode = none ∧
      (handleFindPath s).edgeTargetNode = none ∧
      (handleFindPath s).isRemovingEdge = false ∧
      (handleFindPath s).removeSourceNode = none ∧
      (handleFindPath s).removeTargetNode = none ∧
      (handleFindPath s).newWeight = "" ∧
      (handleFindPath s).weightError = "" ∧
      (handleFindPath s).isFindingPath = true ∧
      (handleFindPath s).pathSourceNode = none ∧
      (handleFindPath s).pathTargetNode = none ∧
      (handleFindPath s).edgeError = s.edgeError ∧
      (handleFindPath s).removeEdgeError = s.removeEdgeError) := by
  repeat' constructor

/-! ## Helper lemmas on the edge-existence check -/

/-- An edge of the list connecting `a` and `b` in either orientation makes
the handlers' `links.some(...)` check succeed. -/
theorem edgeExistsB_of_mem (links : List Edge) (a b : String) (e : Edge)
    (he : e ∈ links)
    (hm : (e.source = a ∧ e.target = b) ∨ (e.source = b ∧ e.target = a)) :
    edgeExistsB links a b = true := by
  unfold edgeExistsB
  rw [List.any_eq_true]
  refine ⟨e, he, ?_⟩
  rcases hm with ⟨h1, h2⟩ | ⟨h1, h2⟩ <;> simp [edgeMatches, h1, h2]

/-- The existence check is orientation-independent. -/
theorem edgeMatches_symm (a b : String) (l : Edge) :
    edgeMatches a b l = edgeMatches b a l := by
  unfold edgeMatches
  rw [Bool.or_comm]

/-! ## Claim C9 -/

/-- C9: in each of the four two-step modes (AddingEdge, RemovingEdge,
ModifyingWeight, FindingPath), a node pick whose id equals the
already-recorded source is a no-op: the state (graph, mode, all scratch
fields, displayed path result) is returned unchanged and no timer or alert
is produced. -/
theorem C9_same_pick_noop (s : AppState) (w : Nat) (a : String) (ha : a ≠ "")
    (hSel : s.isSelectingNodes = false) :
    (s.isAddingEdge = true → s.edgeSourceNode = some a →
      handleNodeClick w a s = ⟨s, [], []⟩) ∧
    (s.isAddingEdge = false → s.isRemovingEdge = true → s.removeSourceNode = some a →
      handleNodeClick w a s = ⟨s, [], []⟩) ∧
    (s.isAddingEdge = false → s.isRemovingEdge = false → s.isModifyingWeight = true →
      s.weightSourceNode = some a → handleNodeClick w a s = ⟨s, [], []⟩) ∧
    (s.isAddingEdge = false → s.isRemovingEdge = false → s.isModifyingWeight = false →
      s.isFindingPath = true → s.pathSourceNode = some a →
      handleNodeClick w a s = ⟨s, [], []⟩) := by
  refine ⟨fun h1 h2 => ?_, fun h1 h2 h3 => ?_, fun h1 h2 h3 h4 => ?_,
    fun h1 h2 h3 h4 h5 => ?_⟩
  · simp [handleNodeClick, hSel, h1, h2, noClick, ha]
  · simp [handleNodeClick, hSel, h1, h2, h3, noClick, ha]
  · simp [handleNodeClick, hSel, h1, h2, h3, h4, noClick, ha]
  · simp [handleNodeClick, hSel, h1, h2, h3, h4, h5, noClick, ha]

/-- C9 witness: the theorem applied to a concrete AddingEdge session. -/
theorem C9_same_pick_noop_witness :
    handleNodeClick 5 "a" c3Sel = ⟨c3Sel, [], []⟩ :=
  (C9_same_pick_noop c3Sel 5 "a" (by decide) (by decide)).1 (by decide) (by decide)

/-! ## Claim C3 -/

/-- C3: for every graph state in which an edge already connects nodes `a`
and `b` (stored in either orientation), completing the AddingEdge two-step
pick with source `a` and target `b` is rejected with the duplicate-edge
error: the entire state except the error message — in particular the edge
list, the existing edge's stored weight, and the recorded source selection
— is unchanged, so the user can immediately retry with a different target.
(The orientation-independence of the check makes the `(b,a)` direction the
same statement with `a` and `b` renamed.) -/
theorem C3_duplicate_edge_rejected (s : AppState) (w : Nat) (a b : String) (e : Edge)
    (hSel : s.isSelectingNodes = false) (hAdd : s.isAddingEdge = true)
    (hSrc : s.edgeSourceNode = some a) (ha : a ≠ "") (hab : b ≠ a)
    (he : e ∈ s.graphData.links)
    (hm : (e.source = a ∧ e.target = b) ∨ (e.source = b ∧ e.target = a)) :
    handleNodeClick w b s
      = ⟨{ s with edgeError := "An edge already exists between these nodes" }, [], []⟩ := by
  have hex : edgeExistsB s.graphData.links a b = true :=
    edgeExistsB_of_mem s.graphData.links a b e he hm
  simp [handleNodeClick, hSel, hAdd, hSrc, ha, hab, hex]

/-- C3 witness: picking `b` after source `a` over a graph storing `(b,a,4)`
is rejected and only the error message changes. -/
theorem C3_duplicate_edge_rejected_witness :
    handleNodeClick 5 "b" c3Sel
      = ⟨{ c3Sel with edgeError := "An edge already exists between these nodes" }, [], []⟩ :=
  C3_duplicate_edge_rejected c3Sel 5 "a" "b" ⟨"b", "a", 4⟩ (by decide) (by decide)
    (by decide) (by decide) (by decide) (by decide) (by decide)

/-! ## Claim C5 -/

/-- C5: `handleWeightSubmit` with recorded picks `a`, `b`: an empty pending
text, a text that does not parse, or a text parsing to a non-positive value
each set a mode-local error and leave everything else (in particular the
graph and the stored weight of the selected edge) unchanged; a text parsing
to a positive integer `wv` replaces the weight of every edge between `a`
and `b` (matched in either orientation) by `wv`, preserving its two
endpoints and leaving all other edges and the node list unchanged,
registers the edited edge for highlight with a 15000 ms expiry, and clears
the pending input and the error. -/
theorem C5_submit_weight (s : AppState) (a b : String) (wv : Int)
    (hs : s.weightSourceNode = some a) (ht : s.weightTargetNode = some b) :
    (s.newWeight = "" →
      handleWeightSubmit s = ⟨{ s with weightError := "Please enter a weight" }, [], []⟩) ∧
    (s.newWeight ≠ "" → jsParseInt s.newWeight = none →
      handleWeightSubmit s
        = ⟨{ s with weightError := "Please enter a valid positive number" }, [], []⟩) ∧
    (s.newWeight ≠ "" → jsParseInt s.newWeight = some wv → wv ≤ 0 →
      handleWeightSubmit s
        = ⟨{ s with weightError := "Please enter a valid positive number" }, [], []⟩) ∧
    (s.newWeight ≠ "" → jsParseInt s.newWeight = some wv → 0 < wv →
      handleWeightSubmit s
        = ⟨{ s with
              graphData := ⟨s.graphData.nodes,
                s.graphData.links.map (fun l =>
                  if edgeMatchesOpt (some a) (some b) l then { l with weight := wv.toNat }
                  else l)⟩,
              modifiedEdgeHighlight := [a ++ "-" ++ b],
              newWeight := "", weightError := "" },
            [(15000, TimerAction.clearModifiedEdgeHighlight)], []⟩) := by
  refine ⟨fun h1 => ?_, fun h1 h2 => ?_, fun h1 h2 h3 => ?_, fun h1 h2 h3 => ?_⟩
  · simp [handleWeightSubmit, h1]
  · simp [handleWeightSubmit, h1, h2]
  · have : ¬ (0 < wv) := not_lt.mpr h3
    simp [handleWeightSubmit, h1, h2, this]
  · simp [handleWeightSubmit, h1, h2, h3, hs, ht, jsStr]

/-- C5 witness: the theorem applied to a concrete ModifyingWeight session
with pending text "7" over the single stored edge (a,b,3). -/
theorem C5_submit_weight_witness :
    handleWeightSubmit c5Sel
      = ⟨{ c5Sel with
            graphData := ⟨c5Sel.graphData.nodes,
              c5Sel.graphData.links.map (fun l =>
                if edgeMatchesOpt (some "a") (some "b") l then { l with weight := (7 : Int).toNat }
                else l)⟩,
            modifiedEdgeHighlight := ["a" ++ "-" ++ "b"],
            newWeight := "", weightError := "" },
          [(15000, TimerAction.clearModifiedEdgeHighlight)], []⟩ :=
  (C5_submit_weight c5Sel "a" "b" 7 (by decide) (by decide)).2.2.2
    (by decide) (by decide) (by decide)

/-! ## Claim C7 -/

/-- C7: `handleDoneSelection` with pending id `nid`: if the chosen-peers
set is empty it alerts the no-peers message and performs no mutation (the
state, in particular the node and edge collections and the
SelectingPeersForNewNode session, is returned unchanged); if the set is
non-empty it adds exactly one new node with the pending id, adds one new
edge with the freshly generated (positive) weight from that node to every
chosen peer, registers the new node and all new edges with the highlight
subsystem (15000 ms expiry), and returns the session to Idle with the peer
set and pending id cleared. -/
theorem C7_confirm_selection (s : AppState) (gen : Nat → Nat) (nid : String)
    (hid : s.newNodeId = some nid) (hne : nid ≠ "") (hpos : ∀ i, 0 < gen i) :
    (s.selectedNodes = [] →
      handleDoneSelection gen s = ⟨s, [], ["Please select at least one node to connect with"]⟩) ∧
    (s.selectedNodes ≠ [] →
      handleDoneSelection gen s
        = ⟨{ s with
              shortestPathInfo := none,
              newNodeHighlight := some nid,
              newEdgeHighlight :=
                ((s.selectedNodes.enum).map (fun p => Edge.mk nid p.2 (gen p.1))).map
                  (fun e => e.source ++ "-" ++ e.target),
              graphData := ⟨s.graphData.nodes ++ [Node.mk nid],
                s.graphData.links ++ (s.selectedNodes.enum).map (fun p => Edge.mk nid p.2 (gen p.1))⟩,
              isSelectingNodes := false,
              selectedNodes := [],
              newNodeId := none },
            [(15000, TimerAction.clearNodeAndEdgeHighlight)], []⟩ ∧
      (∀ e ∈ (s.selectedNodes.enum).map (fun p => Edge.mk nid p.2 (gen p.1)),
        0 < e.weight ∧ e.source = nid) ∧
      List.length ((s.selectedNodes.enum).map (fun p => Edge.mk nid p.2 (gen p.1)))
        = s.selectedNodes.length) := by
  refine ⟨fun h1 => ?_, fun h1 => ⟨?_, fun e hmem => ?_, ?_⟩⟩
  · simp [handleDoneSelection, hid, h1]
  · have hlen : ¬ (s.selectedNodes.length = 0) := by
      simpa [List.length_eq_zero] using h1
    simp [handleDoneSelection, optTruthy, hid, hne, hlen, jsStr]
  · rw [List.mem_map] at hmem
    obtain ⟨p, hp, rfl⟩ := hmem
    exact ⟨hpos p.1, rfl⟩
  · simp

/-- C7 witness: the theorem applied to a concrete session with pending id
`node2` and chosen peer `node1`, generated weight 9. -/
theorem C7_confirm_selection_witness :
    handleDoneSelection (fun _ => 9) c7Sel
      = ⟨{ c7Sel with
            shortestPathInfo := none,
            newNodeHighlight := some "node2",
            newEdgeHighlight :=
              ((c7Sel.selectedNodes.enum).map (fun p => Edge.mk "node2" p.2 9)).map
                (fun e => e.source ++ "-" ++ e.target),
            graphData := ⟨c7Sel.graphData.nodes ++ [Node.mk "node2"],
              c7Sel.graphData.links ++ (c7Sel.selectedNodes.enum).map (fun p => Edge.mk "node2" p.2 9)⟩,
            isSelectingNodes := false,
            selectedNodes := [],
            newNodeId := none },
          [(15000, TimerAction.clearNodeAndEdgeHighlight)], []⟩ :=
  ((C7_confirm_selection c7Sel (fun _ => 9) "node2" (by decide) (by decide)
    (fun _ => Nat.succ_pos 8)).2 (by decide)).1

/-- After filtering out every edge matching the pair, the existence check
for that pair fails. -/
theorem edgeExistsB_filter_false (links : List Edge) (a b : String) :
    edgeExistsB (links.filter (fun l => !(edgeMatches a b l))) a b = false := by
  unfold edgeExistsB
  rw [List.any_eq_false]
  intro l hl
  rw [List.mem_filter] at hl
  simpa using hl.2

/-- The existence check ignores orientation of the query pair. -/
theorem edgeExistsB_symm (links : List Edge) (a b : String) :
    edgeExistsB links b a = edgeExistsB links a b := by
  unfold edgeExistsB
  congr 1
  funext l
  exact (edgeMatches_symm a b l).symm

/-! ## Claim C8 -/

/-- C8: edge removal is orientation-independent.  In a RemovingEdge session
over state `s`: when some edge connects `a` and `b` (in either stored
orientation), completing the picks as (a, b) and completing them as (b, a)
remove exactly the same edges (every matching edge leaves the list, via the
same filter); when no edge connects the pair, the removal is rejected with
the edge-not-found error and the edge list is unchanged; and after a
successful removal the same pair no longer passes the existence check, so
the immediately repeated removal of the same pair fails cleanly with the
error and no further state change. -/
theorem C8_remove_edge (s : AppState) (w : Nat) (a b : String)
    (hSel : s.isSelectingNodes = false) (hAdd : s.isAddingEdge = false)
    (hRem : s.isRemovingEdge = true) (ha : a ≠ "") (hb : b ≠ "") (hab : b ≠ a) :
    (∀ l, edgeMatches a b l = edgeMatches b a l) ∧
    (edgeExistsB s.graphData.links a b = true →
      handleNodeClick w b { s with removeSourceNode := some a }
        = ⟨{ s with
              removeSourceNode := some a,
              graphData := ⟨s.graphData.nodes,
                s.graphData.links.filter (fun l => !(edgeMatches a b l))⟩,
              removeTargetNode := some b, removeEdgeError := "" }, [], []⟩ ∧
      handleNodeClick w a { s with removeSourceNode := some b }
        = ⟨{ s with
              removeSourceNode := some b,
              graphData := ⟨s.graphData.nodes,
                s.graphData.links.filter (fun l => !(edgeMatches a b l))⟩,
              removeTargetNode := some a, removeEdgeError := "" }, [], []⟩ ∧
      (∀ e ∈ s.graphData.links, edgeMatches a b e = true →
        e ∉ s.graphData.links.filter (fun l => !(edgeMatches a b l))) ∧
      edgeExistsB (s.graphData.links.filter (fun l => !(edgeMatches a b l))) a b = false ∧
      handleNodeClick w b
          { s with
              removeSourceNode := some a,
              graphData := ⟨s.graphData.nodes,
                s.graphData.links.filter (fun l => !(edgeMatches a b l))⟩,
              removeTargetNode := some b, removeEdgeError := "" }
        = ⟨{ s with
              removeSourceNode := some a,
              graphData := ⟨s.graphData.nodes,
                s.graphData.links.filter (fun l => !(edgeMatches a b l))⟩,
              removeTargetNode := some b,
              removeEdgeError := "No edge exists between these nodes" }, [], []⟩) ∧
    (edgeExistsB s.graphData.links a b = false →
      handleNodeClick w b { s with removeSourceNode := some a }
        = ⟨{ s with
              removeSourceNode := some a,
              removeEdgeError := "No edge exists between these nodes" }, [], []⟩) := by
  refine ⟨fun l => edgeMatches_symm a b l, fun hex => ⟨?_, ?_, fun e he hm => ?_, ?_, ?_⟩,
    fun hnex => ?_⟩
  · simp [handleNodeClick, hSel, hAdd, hRem, ha, hab, hex]
  · have hex2 : edgeExistsB s.graphData.links b a = true := by
      rw [edgeExistsB_symm]; exact hex
    have hfil : s.graphData.links.filter (fun l => !(edgeMatches b a l))
        = s.graphData.links.filter (fun l => !(edgeMatches a b l)) := by
      congr 1
      funext l
      rw [edgeMatches_symm]
    have hba : a ≠ b := fun h => hab h.symm
    simp [handleNodeClick, hSel, hAdd, hRem, hb, hba, hex2, hfil]
  · intro hmem
    rw [List.mem_filter] at hmem
    simp [hm] at hmem
  · exact edgeExistsB_filter_false s.graphData.links a b
  · simp [handleNodeClick, hSel, hAdd, hRem, ha, hab,
      edgeExistsB_filter_false s.graphData.links a b]
  · simp [handleNodeClick, hSel, hAdd, hRem, ha, hab, hnex]

/-- C8 witness: the theorem applied to a RemovingEdge session over the
single stored edge (b,a,4), picks (a,b): the edge is removed. -/
theorem C8_remove_edge_witness :
    handleNodeClick 5 "b" { c8Sel with removeSourceNode := some "a" }
      = ⟨{ c8Sel with
            removeSourceNode := some "a",
            graphData := ⟨c8Sel.graphData.nodes,
              c8Sel.graphData.links.filter (fun l => !(edgeMatches "a" "b" l))⟩,
            removeTargetNode := some "b", removeEdgeError := "" }, [], []⟩ :=
  ((C8_remove_edge c8Sel 5 "a" "b" (by decide) (by decide) (by decide) (by decide)
    (by decide) (by decide)).2.1 (by decide)).1

/-! ## Claim C6 -/

/-- Once the edge-highlight set is empty, firing further timers keeps it
empty (every callback only clears highlight state). -/
theorem foldTimers_keeps_empty (l : List (Nat × TimerAction)) :
    ∀ s : AppState, s.newEdgeHighlight = [] →
      (l.foldl (fun s p => applyTimer p.2 s) s).newEdgeHighlight = [] := by
  induction l with
  | nil => intro s h; exact h
  | cons q l ih =>
    intro s h
    refine ih (applyTimer q.2 s) ?_
    cases hq : q.2 <;> simp [applyTimer, h]

/-- Firing a batch of timers that contains a clear-new-edge-highlight
callback leaves the edge-highlight set empty, whatever it contained. -/
theorem foldTimers_clear (l : List (Nat × TimerAction)) :
    ∀ (s : AppState) (p : Nat × TimerAction), p ∈ l →
      p.2 = TimerAction.clearNewEdgeHighlight →
      (l.foldl (fun s p => applyTimer p.2 s) s).newEdgeHighlight = [] := by
  induction l with
  | nil => intro s p hp; exact absurd hp (List.not_mem_nil p)
  | cons q l ih =>
    intro s p hp hact
    rcases List.mem_cons.mp hp with hq | hq
    · subst hq
      refine foldTimers_keeps_empty l (applyTimer p.2 s) ?_
      rw [hact]
      rfl
    · exact ih (applyTimer q.2 s) p hq hact

/-- C6 counterexample: two highlight registrations made during one
AddingEdge session, at times 0 and 10000, each scheduling its 15000 ms
timer.  When the first registration's timer fires at time 15000 — with no
mode entry and no graph mutation occurring then — the registration made at
10000 is removed too, only 5000 ms after it was made and 10000 ms before
its own timer (still pending at 25000) fires: registrations do NOT have
independent expiry, refuting the claim. -/
theorem C6_independent_expiry_cex :
    c6Sys2.st.newEdgeHighlight = ["node1-node3"] ∧
    c6Sys2.timers = [(15000, TimerAction.clearNewEdgeHighlight),
      (25000, TimerAction.clearNewEdgeHighlight)] ∧
    c6Sys2.now = 10000 ∧
    c6Sys3.now = 15000 ∧
    c6Sys3.st.newEdgeHighlight = [] ∧
    c6Sys3.timers = [(25000, TimerAction.clearNewEdgeHighlight)] := by decide

/-- C6 (amended): every highlight registration made by a successful
AddingEdge pick schedules exactly one removal 15000 ms later, but the
scheduled callback clears the ENTIRE edge-highlight set (it is
`setNewEdgeHighlight(new Set())`), and a new registration replaces the set;
consequently whenever any pending clear-new-edge-highlight timer is due,
firing the due timers leaves the edge-highlight set empty — a registration
lives at most 15000 ms, but concurrently live registrations are all removed
by the earliest firing timer rather than expiring independently. -/
theorem C6_timer_amended (s s2 : AppState) (sys : Sys) (w t d : Nat) (a b : String)
    (hSel : s.isSelectingNodes = false) (hAdd : s.isAddingEdge = true)
    (hSrc : s.edgeSourceNode = some a) (ha : a ≠ "") (hab : b ≠ a)
    (hex : edgeExistsB s.graphData.links a b = false)
    (hmem : (d, TimerAction.clearNewEdgeHighlight) ∈ sys.timers) (hd : d ≤ t) :
    (handleNodeClick w b s).timers = [(15000, TimerAction.clearNewEdgeHighlight)] ∧
    (handleNodeClick w b s).state.newEdgeHighlight = [a ++ "-" ++ b] ∧
    applyTimer TimerAction.clearNewEdgeHighlight s2 = { s2 with newEdgeHighlight := [] } ∧
    (fireDueAt t sys).st.newEdgeHighlight = [] := by
  refine ⟨?_, ?_, rfl, ?_⟩
  · simp [handleNodeClick, hSel, hAdd, hSrc, ha, hab, hex]
  · simp [handleNodeClick, hSel, hAdd, hSrc, ha, hab, hex]
  · refine foldTimers_clear _ sys.st (d, TimerAction.clearNewEdgeHighlight) ?_ rfl
    rw [List.mem_filter]
    exact ⟨hmem, decide_eq_true hd⟩

/-- C6 witness: the amended theorem applied to the concrete scenario —
the pick at time 0 schedules one 15000 ms timer, and firing the due timer
of `c6Sys2` at time 15000 empties the edge-highlight set. -/
theorem C6_timer_amended_witness :
    (handleNodeClick 20 "node2" c6Start).timers
        = [(15000, TimerAction.clearNewEdgeHighlight)] ∧
    (handleNodeClick 20 "node2" c6Start).state.newEdgeHighlight
        = ["node1" ++ "-" ++ "node2"] ∧
    applyTimer TimerAction.clearNewEdgeHighlight c6Start
        = { c6Start with newEdgeHighlight := [] } ∧
    (fireDueAt 15000 c6Sys2).st.newEdgeHighlight = [] :=
  C6_timer_amended c6Start c6Start c6Sys2 20 15000 15000 "node1" "node2"
    (by decide) (by decide) (by decide) (by decide) (by decide) (by decide)
    (by decide) (by decide)

/-! ## Claim C4 -/

/-- Membership after a `push` into the adjacency dictionary. -/
theorem mem_pushAdj {g : Adj} {a : String} {b : String × Nat} {k : String} {v : String × Nat}
    (h : v ∈ pushAdj g a b k) : v ∈ g k ∨ (k = a ∧ v = b) := by
  unfold pushAdj at h
  by_cases hk : k = a
  · rw [if_pos hk] at h
    rcases List.mem_append.mp h with h | h
    · exact Or.inl h
    · exact Or.inr ⟨hk, List.mem_singleton.mp h⟩
  · rw [if_neg hk] at h
    exact Or.inl h

/-- Every adjacency entry of `buildAdj` comes from an edge of the list
connecting the key and the entry (in one or the other orientation). -/
theorem adjFold_sound :
    ∀ (l : List Edge) (g0 : Adj) (k : String) (v : String × Nat),
      v ∈ (l.foldl
        (fun g e => pushAdj (pushAdj g e.source (e.target, e.weight)) e.target
          (e.source, e.weight)) g0) k →
      v ∈ g0 k ∨ EdgeConn l k v.1 := by
  intro l
  induction l with
  | nil => intro g0 k v h; exact Or.inl h
  | cons e l ih =>
    intro g0 k v h
    rcases ih _ k v h with h1 | h1
    · rcases mem_pushAdj h1 with h2 | h2
      · rcases mem_pushAdj h2 with h3 | h3
        · exact Or.inl h3
        · exact Or.inr ⟨e, List.mem_cons_self e l, Or.inl ⟨h3.1.symm, by rw [h3.2]⟩⟩
      · exact Or.inr ⟨e, List.mem_cons_self e l, Or.inr ⟨by rw [h2.2], h2.1.symm⟩⟩
    · obtain ⟨e2, he2, hm⟩ := h1
      exact Or.inr ⟨e2, List.mem_cons_of_mem e he2, hm⟩

/-- Adjacency soundness for `buildAdj`. -/
theorem buildAdj_sound {edges : List Edge} {k : String} {v : String × Nat}
    (h : v ∈ buildAdj edges k) : EdgeConn edges k v.1 := by
  rcases adjFold_sound edges (fun _ => []) k v h with h1 | h1
  · exact absurd h1 (List.not_mem_nil v)
  · exact h1

/-- Relaxing the neighbors of a node reachable from the source only makes
reachable nodes finite: the distance map's finiteness invariant is
preserved through the relaxation fold. -/
theorem relaxFold_reach (edges : List Edge) (src c : String) (uvl : List String) :
    ∀ (l : List (String × Nat)) (dp : DistMap × PrevMap),
      (∀ x d, dp.1 x = some d → Reach edges src x) →
      (∀ nb ∈ l, EdgeConn edges c nb.1) →
      ∀ x d, (l.foldl (relaxStep c uvl) dp).1 x = some d → Reach edges src x := by
  intro l
  induction l with
  | nil => intro dp hinv _ x d h; exact hinv x d h
  | cons nb l ih =>
    intro dp hinv hconn x d h
    refine ih (relaxStep c uvl dp nb) ?_ (fun nb2 h2 => hconn nb2 (List.mem_cons_of_mem nb h2))
      x d h
    intro y dy hy
    unfold relaxStep at hy
    by_cases hm : nb.1 ∈ uvl
    · rw [if_pos hm] at hy
      by_cases hlt : distLt (addDist (dp.1 c) nb.2) (dp.1 nb.1) = true
      · simp only [hlt, if_true] at hy
        unfold updateD at hy
        by_cases hyx : y = nb.1
        · rw [if_pos hyx] at hy
          cases hc : dp.1 c with
          | none => rw [hc] at hy; exact absurd hy (by simp [addDist])
          | some dc =>
            subst hyx
            exact Reach.step (hinv c dc hc) (hconn nb (List.mem_cons_self nb l))
        · rw [if_neg hyx] at hy
          exact hinv y dy hy
      · simp only [hlt, if_false] at hy
        exact hinv y dy hy
    · rw [if_neg hm] at hy
      exact hinv y dy hy

/-- The finiteness-implies-reachability invariant is preserved by the whole
Dijkstra loop. -/
theorem dijkstraLoop_reach (edges : List Edge) (src endId : String) :
    ∀ (fuel : Nat) (uv : List String) (dp : DistMap × PrevMap),
      (∀ x d, dp.1 x = some d → Reach edges src x) →
      ∀ x d, (dijkstraLoop (buildAdj edges) endId fuel uv dp).1 x = some d →
        Reach edges src x := by
  intro fuel
  induction fuel with
  | zero => intro uv dp hinv x d h; exact hinv x d (by simpa [dijkstraLoop] using h)
  | succ fuel ih =>
    intro uv dp hinv x d h
    rw [dijkstraLoop] at h
    cases hscan : scanMin uv dp.1 with
    | none => rw [hscan] at h; exact hinv x d h
    | some c =>
      rw [hscan] at h
      dsimp only at h
      by_cases hc : c = endId
      · rw [if_pos hc] at h; exact hinv x d h
      · rw [if_neg hc] at h
        refine ih (uv.erase c) _ ?_ x d h
        exact relaxFold_reach edges src c (uv.erase c) (buildAdj edges c) dp hinv
          (fun nb hnb => buildAdj_sound hnb)

/-- C4: for every graph snapshot and every pair of existing source and
target nodes lying in disjoint components (the target is not reachable from
the source through the edge list), `findShortestPath` returns the "no path"
result `some none` — never a partial path, never a path with non-finite
weight, and never an error. -/
theorem C4_disconnected_no_path (nodes : List Node) (edges : List Edge) (src tgt : String)
    (hs : src ∈ nodes.map Node.id) (ht : tgt ∈ nodes.map Node.id)
    (hnr : ¬ Reach edges src tgt) :
    findShortestPath nodes edges src tgt = some none := by
  have hinv0 : ∀ x d, (initDist src) x = some d → Reach edges src x := by
    intro x d hx
    unfold initDist updateD at hx
    by_cases hxs : x = src
    · subst hxs; exact Reach.refl
    · rw [if_neg hxs] at hx; exact absurd hx (by simp)
  unfold findShortestPath
  cases hdp : (dijkstraLoop (buildAdj edges) tgt ((initUnvisited nodes).length + 1)
      (initUnvisited nodes) (initDist src, fun _ => none)).1 tgt with
  | none => simp [hdp]
  | some d =>
    exact absurd
      (dijkstraLoop_reach edges src tgt ((initUnvisited nodes).length + 1)
        (initUnvisited nodes) (initDist src, fun _ => none) hinv0 tgt d hdp) hnr

/-- Reachability from node 1 in the two-component witness graph stays in
the component {1, 2}. -/
theorem c4_reach_component : ∀ x, Reach c4Edges "1" x → x = "1" ∨ x = "2" := by
  intro x h
  induction h with
  | refl => exact Or.inl rfl
  | step hR hconn ih =>
    obtain ⟨e, he, hm⟩ := hconn
    simp only [c4Edges, List.mem_cons, List.not_mem_nil, or_false] at he
    rcases he with rfl | rfl <;> rcases hm with ⟨h1, h2⟩ | ⟨h1, h2⟩ <;>
      rcases ih with rfl | rfl <;> simp_all

/-- C4 witness: the theorem applied to the concrete two-component graph:
no path from 1 to 3. -/
theorem C4_disconnected_no_path_witness :
    findShortestPath c4Nodes c4Edges "1" "3" = some none :=
  C4_disconnected_no_path c4Nodes c4Edges "1" "3" (by decide) (by decide)
    (fun h => by rcases c4_reach_component "3" h with h3 | h3 <;> simp at h3)

/-! ## Claim C10 -/

/-- The minimum-distance scan only selects nodes of the list it scans. -/
theorem scanFold_mem (dist : DistMap) :
    ∀ (l : List String) (acc : Option String × Option Nat) (c : String),
      (l.foldl (scanStep dist) acc).1 = some c → acc.1 = some c ∨ c ∈ l := by
  intro l
  induction l with
  | nil => intro acc c h; exact Or.inl h
  | cons a l ih =>
    intro acc c h
    rcases ih (scanStep dist acc a) c h with h1 | h1
    · unfold scanStep at h1
      by_cases hlt : distLt (dist a) acc.2 = true
      · rw [if_pos hlt] at h1
        cases Option.some.inj h1
        exact Or.inr (List.mem_cons_self a l)
      · rw [if_neg hlt] at h1
        exact Or.inl h1
    · exact Or.inr (List.mem_cons_of_mem a h1)

/-- The selected minimum-distance node is unvisited. -/
theorem scanMin_mem {uv : List String} {dist : DistMap} {c : String}
    (h : scanMin uv dist = some c) : c ∈ uv := by
  rcases scanFold_mem dist uv ((none : Option String), (none : Option Nat)) c h with h1 | h1
  · exact absurd h1 (by simp)
  · exact h1

/-- A relaxation pass either leaves a predecessor entry unchanged or sets
it to the current node, and then only at an unvisited key. -/
theorem relaxFold_prev (c : String) (uvl : List String) :
    ∀ (l : List (String × Nat)) (dp : DistMap × PrevMap) (v : String),
      (l.foldl (relaxStep c uvl) dp).2 v = dp.2 v ∨
        ((l.foldl (relaxStep c uvl) dp).2 v = some c ∧ v ∈ uvl) := by
  intro l
  induction l with
  | nil => intro dp v; exact Or.inl rfl
  | cons nb l ih =>
    intro dp v
    rw [List.foldl_cons]
    rcases ih (relaxStep c uvl dp nb) v with h1 | h1
    · rw [h1]
      unfold relaxStep
      by_cases hm : nb.1 ∈ uvl
      · rw [if_pos hm]
        by_cases hlt : distLt (addDist (dp.1 c) nb.2) (dp.1 nb.1) = true
        · simp only [hlt, if_true]
          unfold updateP
          by_cases hv : v = nb.1
          · rw [if_pos hv]
            exact Or.inr ⟨rfl, hv ▸ hm⟩
          · rw [if_neg hv]
            exact Or.inl rfl
        · simp only [hlt, if_false]
          exact Or.inl rfl
      · rw [if_neg hm]
        exact Or.inl rfl
    · exact Or.inr h1

/-- Predecessor entries of visited (no longer unvisited) nodes are frozen by
the relaxation pass. -/
theorem relaxFold_prev_frame (c : String) (uvl : List String)
    (l : List (String × Nat)) (dp : DistMap × PrevMap) (v : String) (hv : v ∉ uvl) :
    (l.foldl (relaxStep c uvl) dp).2 v = dp.2 v := by
  rcases relaxFold_prev c uvl l dp v with h | h
  · exact h
  · exact absurd h.2 hv

/-- A predecessor stratification transfers to any map agreeing on the
stratified nodes. -/
theorem tower_congr {p q : PrevMap} : ∀ {vs : List String},
    PrevTower p vs → (∀ v ∈ vs, q v = p v) → PrevTower q vs := by
  intro vs ht
  induction ht with
  | nil => intro _; exact PrevTower.nil
  | snoc vs c _ hpoint ih =>
    intro hagree
    refine PrevTower.snoc vs c (ih ?_) ?_
    · intro v hv
      exact hagree v (List.mem_append.mpr (Or.inl hv))
    · intro u hu
      rw [hagree c (List.mem_append.mpr (Or.inr (List.mem_singleton_self c)))] at hu
      exact hpoint u hu

/-- Unfolding: reconstruction stops as soon as the predecessor is `null`. -/
theorem reconstruct_none (prev : PrevMap) (fuel : Nat) (acc : List String) :
    reconstruct prev fuel none acc = some acc := by
  cases fuel <;> rfl

/-- Unfolding: one step of the reconstruction loop. -/
theorem reconstruct_step (prev : PrevMap) (fuel : Nat) (c : String) (acc : List String) :
    reconstruct prev (fuel + 1) (some c) acc = reconstruct prev fuel (prev c) (c :: acc) := rfl

/-- A predecessor chain starting inside a stratified list reaches `null`
within the list's length, so reconstruction with that much fuel cannot run
out. -/
theorem tower_reconstruct {prev : PrevMap} : ∀ {vs : List String}, PrevTower prev vs →
    ∀ u, u ∈ vs → ∀ (acc : List String) (fuel : Nat), vs.length ≤ fuel →
      reconstruct prev fuel (some u) acc ≠ none := by
  intro vs ht
  induction ht with
  | nil => intro u hu; exact absurd hu (List.not_mem_nil u)
  | snoc vs c _ hpoint ih =>
    intro u hu acc fuel hfuel
    rw [List.length_append, List.length_singleton] at hfuel
    obtain ⟨f, rfl⟩ : ∃ f, fuel = f + 1 := ⟨fuel - 1, by omega⟩
    rcases List.mem_append.mp hu with hu | hu
    · exact ih u hu acc (f + 1) (by omega)
    · rw [List.mem_singleton] at hu
      subst hu
      rw [reconstruct_step]
      cases hc : prev u with
      | none => rw [reconstruct_none]; exact Option.some_ne_none (u :: acc)
      | some u2 => exact ih u2 (hpoint u2 hc) (u :: acc) f (by omega)

/-- The unvisited `Set` construction produces a duplicate-free list. -/
theorem dedupFold_nodup :
    ∀ (l : List Node) (acc : List String), acc.Nodup →
      (l.foldl (fun l n => if n.id ∈ l then l else l ++ [n.id]) acc).Nodup := by
  intro l
  induction l with
  | nil => intro acc h; exact h
  | cons n l ih =>
    intro acc h
    rw [List.foldl_cons]
    refine ih _ ?_
    show (if n.id ∈ acc then acc else acc ++ [n.id]).Nodup
    by_cases hm : n.id ∈ acc
    · rw [if_pos hm]; exact h
    · rw [if_neg hm]
      exact h.append (List.nodup_singleton n.id)
        (fun a ha hb => hm (by rwa [List.mem_singleton.mp hb] at ha))

/-- The unvisited `Set` has at most one entry per node. -/
theorem dedupFold_length :
    ∀ (l : List Node) (acc : List String),
      (l.foldl (fun l n => if n.id ∈ l then l else l ++ [n.id]) acc).length
        ≤ acc.length + l.length := by
  intro l
  induction l with
  | nil => intro acc; simp
  | cons n l ih =>
    intro acc
    rw [List.foldl_cons]
    refine le_trans (ih _) ?_
    show (if n.id ∈ acc then acc else acc ++ [n.id]).length + l.length
      ≤ acc.length + (n :: l).length
    by_cases hm : n.id ∈ acc
    · rw [if_pos hm]; simp
    · rw [if_neg hm]; simp [List.length_append]; omega

/-- `initUnvisited` is duplicate-free. -/
theorem initUnvisited_nodup (nodes : List Node) : (initUnvisited nodes).Nodup :=
  dedupFold_nodup nodes [] List.nodup_nil

/-- `initUnvisited` is no longer than the node list. -/
theorem initUnvisited_length (nodes : List Node) :
    (initUnvisited nodes).length ≤ nodes.length := by
  simpa using dedupFold_length nodes []

/-- The central invariant of the main loop: the predecessor map stays
stratified over a visited list disjoint from the unvisited list, whose
total size never exceeds `N`.  Consequently the final predecessor map is
stratified over some list of length at most `N`. -/
theorem dijkstraLoop_tower (g : Adj) (endId : String) (N : Nat) :
    ∀ (fuel : Nat) (uv vs : List String) (dp : DistMap × PrevMap),
      uv.Nodup →
      (∀ u ∈ vs, u ∉ uv) →
      (∀ v u, dp.2 v = some u → u ∈ vs) →
      PrevTower dp.2 vs →
      vs.length + uv.length ≤ N →
      ∃ vs2 : List String, vs2.length ≤ N ∧
        (∀ v u, (dijkstraLoop g endId fuel uv dp).2 v = some u → u ∈ vs2) ∧
        PrevTower (dijkstraLoop g endId fuel uv dp).2 vs2 := by
  intro fuel
  induction fuel with
  | zero =>
    intro uv vs dp _ _ hpt htw hlen
    exact ⟨vs, by omega, hpt, htw⟩
  | succ fuel ih =>
    intro uv vs dp hnd hdisj hpt htw hlen
    rw [dijkstraLoop]
    cases hscan : scanMin uv dp.1 with
    | none => exact ⟨vs, by omega, hpt, htw⟩
    | some c =>
      dsimp only
      by_cases hc : c = endId
      · rw [if_pos hc]
        exact ⟨vs, by omega, hpt, htw⟩
      · rw [if_neg hc]
        have hcuv : c ∈ uv := scanMin_mem hscan
        have hnd2 : (uv.erase c).Nodup := hnd.erase c
        have hcne : c ∉ uv.erase c := by
          intro hx
          exact absurd rfl ((hnd.mem_erase_iff).mp hx).1
        have hdisj2 : ∀ u ∈ vs ++ [c], u ∉ uv.erase c := by
          intro u hu
          rcases List.mem_append.mp hu with hu | hu
          · exact fun hmem => hdisj u hu (List.mem_of_mem_erase hmem)
          · rw [List.mem_singleton.mp hu]
            exact hcne
        have hpt2 : ∀ v u, (relaxAll g c (uv.erase c) dp).2 v = some u → u ∈ vs ++ [c] := by
          intro v u hv
          unfold relaxAll at hv
          rcases relaxFold_prev c (uv.erase c) (g c) dp v with h | h
          · rw [h] at hv
            exact List.mem_append.mpr (Or.inl (hpt v u hv))
          · rw [hv] at h
            cases Option.some.inj h.1
            exact List.mem_append.mpr (Or.inr (List.mem_singleton_self c))
        have hagree : ∀ v ∈ vs, (relaxAll g c (uv.erase c) dp).2 v = dp.2 v := by
          intro v hv
          exact relaxFold_prev_frame c (uv.erase c) (g c) dp v
            (fun hmem => hdisj v hv (List.mem_of_mem_erase hmem))
        have hcagree : (relaxAll g c (uv.erase c) dp).2 c = dp.2 c :=
          relaxFold_prev_frame c (uv.erase c) (g c) dp c hcne
        have htw2 : PrevTower (relaxAll g c (uv.erase c) dp).2 (vs ++ [c]) := by
          refine PrevTower.snoc vs c (tower_congr htw hagree) ?_
          intro u hu
          rw [hcagree] at hu
          exact hpt c u hu
        have hlen2 : (vs ++ [c]).length + (uv.erase c).length ≤ N := by
          rw [List.length_append, List.length_singleton, List.length_erase_of_mem hcuv]
          have : 0 < uv.length := List.length_pos.mpr (List.ne_nil_of_mem hcuv)
          omega
        exact ih (uv.erase c) (vs ++ [c]) (relaxAll g c (uv.erase c) dp)
          hnd2 hdisj2 hpt2 htw2 hlen2

/-- Fuel irrelevance of the main loop above one unit per unvisited node:
each iteration removes one node from the unvisited set or breaks, so the
loop is already finished at fuel `|unvisited| + 1`. -/
theorem dijkstraLoop_fuel (g : Adj) (endId : String) :
    ∀ (f : Nat) (uv : List String) (dp : DistMap × PrevMap), uv.length < f →
      dijkstraLoop g endId f uv dp = dijkstraLoop g endId (f + 1) uv dp := by
  intro f
  induction f with
  | zero => intro uv dp h; omega
  | succ f ih =>
    intro uv dp h
    rw [dijkstraLoop]
    conv_rhs => rw [dijkstraLoop]
    cases hscan : scanMin uv dp.1 with
    | none => rfl
    | some c =>
      dsimp only
      by_cases hc : c = endId
      · rw [if_pos hc, if_pos hc]
      · rw [if_neg hc, if_neg hc]
        have hcuv : c ∈ uv := scanMin_mem hscan
        have hlt : (uv.erase c).length < f := by
          rw [List.length_erase_of_mem hcuv]
          have : 0 < uv.length := List.length_pos.mpr (List.ne_nil_of_mem hcuv)
          omega
        exact ih (uv.erase c) (relaxAll g c (uv.erase c) dp) hlt

/-- C10: `findShortestPath` terminates on every input whose edge endpoints
and whose source and target appear in the node list: the main loop removes
one node per iteration or breaks (its result is unchanged by any extra
fuel beyond `|unvisited| + 1`), and the path-reconstruction loop cannot run
out of its `|nodes| + 1` fuel because the predecessor chain is stratified
over the visited nodes, so `findShortestPath` never returns the
fuel-exhaustion value `none`. -/
theorem C10_terminates (nodes : List Node) (edges : List Edge) (src tgt : String) (k : Nat)
    (hend : ∀ e ∈ edges, e.source ∈ nodes.map Node.id ∧ e.target ∈ nodes.map Node.id)
    (hs : src ∈ nodes.map Node.id) (ht : tgt ∈ nodes.map Node.id) :
    findShortestPath nodes edges src tgt ≠ none ∧
    dijkstraLoop (buildAdj edges) tgt ((initUnvisited nodes).length + 1 + k)
        (initUnvisited nodes) (initDist src, fun _ => none)
      = dijkstraLoop (buildAdj edges) tgt ((initUnvisited nodes).length + 1)
        (initUnvisited nodes) (initDist src, fun _ => none) := by
  constructor
  · obtain ⟨vs2, hlen2, hpt2, htw2⟩ :=
      dijkstraLoop_tower (buildAdj edges) tgt (initUnvisited nodes).length
        ((initUnvisited nodes).length + 1) (initUnvisited nodes) []
        (initDist src, fun _ => none) (initUnvisited_nodup nodes)
        (by intro u hu; exact absurd hu (List.not_mem_nil u))
        (by intro v u hv; exact absurd hv (by simp))
        PrevTower.nil (by simp)
    unfold findShortestPath
    cases hd : (dijkstraLoop (buildAdj edges) tgt ((initUnvisited nodes).length + 1)
        (initUnvisited nodes) (initDist src, fun _ => none)).1 tgt with
    | none => simp [hd]
    | some d =>
      simp only [hd]
      cases hrec : reconstruct (dijkstraLoop (buildAdj edges) tgt
          ((initUnvisited nodes).length + 1) (initUnvisited nodes)
          (initDist src, fun _ => none)).2 (nodes.length + 1) (some tgt) [] with
      | none =>
        exfalso
        rw [reconstruct_step] at hrec
        cases hp : (dijkstraLoop (buildAdj edges) tgt ((initUnvisited nodes).length + 1)
            (initUnvisited nodes) (initDist src, fun _ => none)).2 tgt with
        | none =>
          rw [hp, reconstruct_none] at hrec
          exact Option.some_ne_none _ hrec
        | some u =>
          rw [hp] at hrec
          refine tower_reconstruct htw2 u (hpt2 tgt u hp) [tgt] nodes.length ?_ hrec
          exact le_trans hlen2 (initUnvisited_length nodes)
      | some p => simp [hrec]
  · induction k with
    | zero => rfl
    | succ k ihk =>
      have hstep : dijkstraLoop (buildAdj edges) tgt ((initUnvisited nodes).length + 1 + k)
            (initUnvisited nodes) (initDist src, fun _ => none)
          = dijkstraLoop (buildAdj edges) tgt ((initUnvisited nodes).length + 1 + k + 1)
            (initUnvisited nodes) (initDist src, fun _ => none) :=
        dijkstraLoop_fuel (buildAdj edges) tgt ((initUnvisited nodes).length + 1 + k)
          (initUnvisited nodes) (initDist src, fun _ => none) (by omega)
      calc dijkstraLoop (buildAdj edges) tgt ((initUnvisited nodes).length + 1 + (k + 1))
            (initUnvisited nodes) (initDist src, fun _ => none)
          = dijkstraLoop (buildAdj edges) tgt ((initUnvisited nodes).length + 1 + k)
            (initUnvisited nodes) (initDist src, fun _ => none) := by
            rw [show (initUnvisited nodes).length + 1 + (k + 1)
              = (initUnvisited nodes).length + 1 + k + 1 from by omega]
            exact hstep.symm
        _ = dijkstraLoop (buildAdj edges) tgt ((initUnvisited nodes).length + 1)
            (initUnvisited nodes) (initDist src, fun _ => none) := ihk

/-- C10 witness: the theorem applied to the concrete four-node graph with
two extra fuel units. -/
theorem C10_terminates_witness :
    findShortestPath c4Nodes c4Edges "1" "4" ≠ none ∧
    dijkstraLoop (buildAdj c4Edges) "4" ((initUnvisited c4Nodes).length + 1 + 2)
        (initUnvisited c4Nodes) (initDist "1", fun _ => none)
      = dijkstraLoop (buildAdj c4Edges) "4" ((initUnvisited c4Nodes).length + 1)
        (initUnvisited c4Nodes) (initDist "1", fun _ => none) :=
  C10_terminates c4Nodes c4Edges "1" "4" 2 (by decide) (by decide) (by decide)

end Traffic
